import Mathlib

/-!
Verification development for the food_findr search store
(`frontend/src/context/SearchContext.jsx`, current version) and the HTTP
wrapper (`frontend/src/services/api.js`).

The store is embedded shallowly: the React state (`searchParams`,
`searchResults`, `searchCache`), the refs (`abortControllerRef`,
`lastSearchParamsRef`) and the set of issued requests are collected in a
`StoreState` record.  The async `executeSearch` is split at its single
suspension point into a synchronous prefix (`executeSearchStart`, which
returns the possibly-issued request) and the two completion handlers
(`executeSearchSuccess` / `executeSearchFailure`), which check the abort
flag of their own controller before writing, exactly as the source does.
`AbortController` instances are numbered; `abortedIds` records the
controllers on which `abort()` has been called.  Timestamps are
milliseconds (`Nat`), coordinates and numeric filters are rationals.
-/

namespace FoodFindr

/-- The search parameter record held by the store (`useState` initial value
and the shape passed to `executeSearch`). -/
structure SearchParams where
  latitude : Option ℚ
  longitude : Option ℚ
  query : String
  dietary_restrictions : List String
  min_rating : Option ℚ
  max_price : Option ℚ
  max_distance : ℚ
deriving DecidableEq, Repr

/-- The defaults used by `useState` and restored by `clearSearch`. -/
def defaultParams : SearchParams :=
  { latitude := none, longitude := none, query := "",
    dietary_restrictions := [], min_rating := none, max_price := none,
    max_distance := 10 }

/-- Restaurants are identified by their id; the store never inspects the
other fields. -/
abbrev Restaurant := Nat

/-- The `searchResults` record. -/
structure SearchResult where
  loading : Bool
  error : Option String
  data : List Restaurant
  totalResults : Nat
deriving DecidableEq, Repr

/-- The empty / not-searched result (initial value, the empty-filter write
and the `clearSearch` write). -/
def emptyResult : SearchResult :=
  { loading := false, error := none, data := [], totalResults := 0 }

/-- JavaScript `String.prototype.trim`: strip whitespace from both ends. -/
def jsTrim (s : String) : String :=
  ⟨((s.data.dropWhile Char.isWhitespace).reverse.dropWhile Char.isWhitespace).reverse⟩

/-- `Math.round(q * 1000) / 1000`: coordinates are rounded to 3 decimal
places for the cache key.  `Math.round` is `⌊x + 1/2⌋`, which is Mathlib's
`round`. -/
def roundMilli (q : ℚ) : ℚ := (round (q * 1000) : ℤ) / 1000

/-- The coordinate transform in `getCacheKey`:
`params.latitude ? Math.round(params.latitude * 1000) / 1000 : null`.
A coordinate of `0` is falsy in JavaScript and maps to `null`. -/
def jsTruthyCoord : Option ℚ → Option ℚ
  | none => none
  | some q => if q = 0 then none else some (roundMilli q)

/-- `JSON.stringify` of the parameter record with rounded coordinates is
injective on this fixed record shape, so the cache key is modelled as the
transformed record itself. -/
abbrev CacheKey := SearchParams

/-- `getCacheKey`: the parameters with latitude/longitude replaced by their
truthy-rounded versions; every other field participates verbatim. -/
def getCacheKey (p : SearchParams) : CacheKey :=
  { p with latitude := jsTruthyCoord p.latitude,
           longitude := jsTruthyCoord p.longitude }

/-- `hasSearchParams` (the current version, lines 304-314): a non-empty
trimmed query, a complete latitude/longitude pair, a non-empty
dietary-restriction list, a rating floor or a price ceiling.
`max_distance` does not count. -/
def hasSearchParams (p : SearchParams) : Bool :=
  (decide (p.query ≠ "") && decide (jsTrim p.query ≠ ""))
  || (decide (p.latitude ≠ none) && decide (p.longitude ≠ none))
  || decide (p.dietary_restrictions ≠ [])
  || decide (p.min_rating ≠ none)
  || decide (p.max_price ≠ none)

/-- A cache entry: the result snapshot spread together with `cachedAt`. -/
structure CacheEntry where
  result : SearchResult
  cachedAt : Nat
deriving DecidableEq, Repr

/-- The `Map` used for the cache, in insertion order (JavaScript `Map`
iterates keys in insertion order; `set` on an existing key updates in
place). -/
abbrev Cache := List (CacheKey × CacheEntry)

/-- The cache TTL: 5 minutes in milliseconds. -/
def cacheTTL : Nat := 5 * 60 * 1000

/-- The capacity bound checked after insertion. -/
def cacheCapacity : Nat := 100

/-- The cache-flush threshold used by `clearSearch`. -/
def clearThreshold : Nat := 50

/-- `Map.get`. -/
def mapGet (c : Cache) (k : CacheKey) : Option CacheEntry :=
  (c.find? (fun e => decide (e.1 = k))).map (·.2)

/-- `Map.set`: update in place when the key exists, else append. -/
def mapSet (c : Cache) (k : CacheKey) (v : CacheEntry) : Cache :=
  if c.any (fun e => decide (e.1 = k)) then
    c.map (fun e => if e.1 = k then (k, v) else e)
  else
    c ++ [(k, v)]

/-- `Map.delete`: remove the entry with the given key. -/
def mapDelete (c : Cache) (k : CacheKey) : Cache :=
  c.eraseP (fun e => decide (e.1 = k))

/-- `getCachedResults`: a hit only when the entry exists and is younger
than the TTL. -/
def getCachedResults (cache : Cache) (p : SearchParams) (now : Nat) :
    Option CacheEntry :=
  match mapGet cache (getCacheKey p) with
  | some e => if now - e.cachedAt < cacheTTL then some e else none
  | none => none

/-- `!results.error && !results.loading && results.data.length > 0`:
the condition under which `setSearchResultsWithCache` caches.  `!error` is
JavaScript falsiness, so `null` and the empty string both pass. -/
def cacheEligible (r : SearchResult) : Bool :=
  (match r.error with
   | none => true
   | some s => decide (s = ""))
  && !r.loading
  && decide (r.data ≠ [])

/-- A request issued by `executeSearch`: its abort controller and the
parameters it was issued for. -/
structure PendingReq where
  controllerId : Nat
  params : SearchParams
deriving DecidableEq, Repr

/-- The complete store state: React state, the mutable refs, the numbering
of abort controllers, the set of aborted controllers and the requests
issued so far. -/
structure StoreState where
  searchParams : SearchParams
  searchResults : SearchResult
  searchCache : Cache
  autoSearchEnabled : Bool
  abortControllerRef : Option Nat
  lastSearchParams : Option CacheKey
  nextControllerId : Nat
  abortedIds : List Nat
  pending : List PendingReq
deriving DecidableEq, Repr

/-- The provider's initial state. -/
def initialState : StoreState :=
  { searchParams := defaultParams, searchResults := emptyResult,
    searchCache := [], autoSearchEnabled := false,
    abortControllerRef := none, lastSearchParams := none,
    nextControllerId := 0, abortedIds := [], pending := [] }

/-- `setSearchResultsWithCache`: cache eligible results (evicting the
first-inserted key when the size exceeds the capacity), then store the
results. -/
def setSearchResultsWithCache (st : StoreState) (results : SearchResult)
    (p : SearchParams) (now : Nat) : StoreState :=
  let key := getCacheKey p
  let cache2 :=
    if cacheEligible results then
      let c1 := mapSet st.searchCache key ⟨results, now⟩
      if cacheCapacity < c1.length then
        match c1.head? with
        | some e => mapDelete c1 e.1
        | none => c1
      else c1
    else st.searchCache
  { st with searchCache := cache2, searchResults := results }

/-- The `{ ...prevResults, loading: true, error: null }` write performed
before awaiting the request. -/
def loadingResult (prev : SearchResult) : SearchResult :=
  { prev with loading := true, error := none }

/-- The user-facing message written by the catch handler. -/
def failureMessage : String := "Failed to fetch search results. Please try again."

/-- `abortControllerRef.current?.abort()`: the abort list after aborting
the currently held controller, if any. -/
def abortCurrent (st : StoreState) : List Nat :=
  match st.abortControllerRef with
  | some c => c :: st.abortedIds
  | none => st.abortedIds

/-- The synchronous prefix of `executeSearch` up to the `await`:
empty-filter guard, duplicate-search guard, cache lookup, abort of the
previous controller, creation of the new controller and the loading write.
Returns the new state together with the issued request, `none` when the
call returned without a network call.  (The JavaScript default argument
`paramsToSearch = null` resolves to the current `searchParams`; callers
here always pass the parameters explicitly.) -/
def executeSearchStart (st : StoreState) (p : SearchParams) (now : Nat) :
    StoreState × Option PendingReq :=
  if hasSearchParams p = false then
    ({ st with searchResults := emptyResult }, none)
  else if st.lastSearchParams = some (getCacheKey p) then
    (st, none)
  else
    let st1 := { st with lastSearchParams := some (getCacheKey p) }
    match getCachedResults st.searchCache p now with
    | some cached => ({ st1 with searchResults := cached.result }, none)
    | none =>
      let pend : PendingReq := ⟨st.nextControllerId, p⟩
      ({ st1 with
          abortedIds := abortCurrent st,
          abortControllerRef := some st.nextControllerId,
          nextControllerId := st.nextControllerId + 1,
          searchResults := loadingResult st.searchResults,
          pending := st.pending ++ [pend] }, some pend)

/-- The normalized response of `searchRestaurants`. -/
structure SearchResponse where
  restaurants : List Restaurant
  total_results : Nat
deriving DecidableEq, Repr

/-- The success continuation of `executeSearch`: write and cache the new
results unless this call's controller has been aborted. -/
def executeSearchSuccess (st : StoreState) (pend : PendingReq)
    (resp : SearchResponse) (now : Nat) : StoreState :=
  if pend.controllerId ∈ st.abortedIds then st
  else
    setSearchResultsWithCache st
      { loading := false, error := none, data := resp.restaurants,
        totalResults := resp.total_results } pend.params now

/-- The catch handler of `executeSearch`: write the failure result unless
this call's controller has been aborted.  The handler swallows the
exception, so `executeSearch` never throws past the store boundary; the
embedding is accordingly a total function. -/
def executeSearchFailure (st : StoreState) (pend : PendingReq) : StoreState :=
  if pend.controllerId ∈ st.abortedIds then st
  else
    { st with searchResults :=
        { loading := false, error := some failureMessage, data := [],
          totalResults := 0 } }

/-- `clearSearch`: abort any in-flight request, reset the duplicate guard,
the parameters and the results, disable auto-search, and flush the cache
when its size exceeds `clearThreshold`. -/
def clearSearch (st : StoreState) : StoreState :=
  { st with
      abortedIds := abortCurrent st,
      lastSearchParams := none,
      searchParams := defaultParams,
      searchResults := emptyResult,
      autoSearchEnabled := false,
      searchCache :=
        if clearThreshold < st.searchCache.length then [] else st.searchCache }

/-- `updateSearchParams`: merge a partial update (modelled as a function on
the record) into the current parameters; no network activity. -/
def updateSearchParams (st : StoreState) (f : SearchParams → SearchParams) :
    StoreState :=
  { st with searchParams := f st.searchParams }

/-- `setAutoSearch`. -/
def setAutoSearch (st : StoreState) (enabled : Bool) : StoreState :=
  { st with autoSearchEnabled := enabled }

/-- One event on the single-threaded event loop: a call to one of the
store's operations, or the completion (in either direction) of a
previously issued request. -/
inductive Step : StoreState → StoreState → Prop where
  | exec {s : StoreState} (p : SearchParams) (now : Nat) :
      Step s (executeSearchStart s p now).1
  | complete_ok {s : StoreState} (pend : PendingReq) (resp : SearchResponse)
      (now : Nat) (h : pend ∈ s.pending) :
      Step s (executeSearchSuccess s pend resp now)
  | complete_err {s : StoreState} (pend : PendingReq) (h : pend ∈ s.pending) :
      Step s (executeSearchFailure s pend)
  | clear {s : StoreState} : Step s (clearSearch s)
  | update {s : StoreState} (f : SearchParams → SearchParams) :
      Step s (updateSearchParams s f)
  | auto {s : StoreState} (b : Bool) : Step s (setAutoSearch s b)

/-- The states a store instance can reach from the provider's initial
state. -/
inductive Reachable : StoreState → Prop where
  | init : Reachable initialState
  | step {s t : StoreState} : Reachable s → Step s t → Reachable t

/-! ### The HTTP wrapper `enhancedFetch` (`services/api.js`)

One attempt of the underlying `fetch` either succeeds, yields a non-OK
HTTP response (status and status text), fails at the network level with an
error message, or is aborted (by the caller's signal or the internal
timeout, both of which abort the combined controller).  The wrapper is
driven by an oracle giving the outcome of the `i`-th attempt together with
the state of the caller-supplied signal (`existingSignal?.aborted`)
observed in the catch handler.  The result records the produced
result/error, the number of retries performed, and the backoff delay (in
milliseconds) slept before each retry. -/

/-- JavaScript `String.prototype.includes`: substring test on the
character lists. -/
def charsInfix (pat : List Char) : List Char → Bool
  | [] => pat.isPrefixOf []
  | c :: rest => pat.isPrefixOf (c :: rest) || charsInfix pat rest

/-- `message.includes(pat)`. -/
def jsIncludes (s pat : String) : Bool := charsInfix pat.data s.data

/-- The non-OK status mapping of `enhancedFetch` (429, then `>= 500`,
then 404, then the generic message embedding the status text). -/
def httpErrorMessage (status : Nat) (statusText : String) : String :=
  if status = 429 then "Too many requests. Please wait a moment and try again."
  else if 500 ≤ status then "Server error. Please try again later."
  else if status = 404 then "Resource not found."
  else "Error: " ++ toString status ++ " " ++ statusText

inductive FetchOutcome where
  | success
  | httpError (status : Nat) (statusText : String)
  | netError (message : String)
  | abortError
deriving DecidableEq, Repr

/-- The outcome of one attempt, together with the caller signal's aborted
flag as observed in the catch handler of that attempt. -/
structure FetchAttempt where
  outcome : FetchOutcome
  callerAborted : Bool
deriving DecidableEq, Repr

inductive FetchResult where
  | ok
  | err (message : String)
deriving DecidableEq, Repr

structure FetchTrace where
  result : FetchResult
  retriesUsed : Nat
  delays : List Nat
deriving DecidableEq, Repr

/-- The fixed 1 second backoff. -/
def retryDelayMs : Nat := 1000

/-- The default retry count. -/
def defaultRetries : Nat := 2

/-- `enhancedFetch` from attempt `i` with `retries` remaining: an
`AbortError` is converted to "Request was cancelled" and never retried; any
other caught error is retried exactly when retries remain, the caller's
signal is not aborted, and the error message contains the substring
"fetch", after a 1 second delay, with `retries - 1`. -/
def enhancedFetchFrom (f : Nat → FetchAttempt) : Nat → Nat → FetchTrace
  | 0, i =>
    match (f i).outcome with
    | .success => ⟨.ok, 0, []⟩
    | .abortError => ⟨.err "Request was cancelled", 0, []⟩
    | .httpError s t => ⟨.err (httpErrorMessage s t), 0, []⟩
    | .netError m => ⟨.err m, 0, []⟩
  | r + 1, i =>
    match (f i).outcome with
    | .success => ⟨.ok, 0, []⟩
    | .abortError => ⟨.err "Request was cancelled", 0, []⟩
    | .httpError s t =>
      if (f i).callerAborted = false ∧ jsIncludes (httpErrorMessage s t) "fetch" = true then
        let rest := enhancedFetchFrom f r (i + 1)
        ⟨rest.result, rest.retriesUsed + 1, retryDelayMs :: rest.delays⟩
      else ⟨.err (httpErrorMessage s t), 0, []⟩
    | .netError m =>
      if (f i).callerAborted = false ∧ jsIncludes m "fetch" = true then
        let rest := enhancedFetchFrom f r (i + 1)
        ⟨rest.result, rest.retriesUsed + 1, retryDelayMs :: rest.delays⟩
      else ⟨.err m, 0, []⟩

/-- `enhancedFetch` with the given retry budget, starting at attempt 0. -/
def enhancedFetch (f : Nat → FetchAttempt) (retries : Nat) : FetchTrace :=
  enhancedFetchFrom f retries 0

/-- Every cache entry is a completed, error-free snapshot, and the cache
respects the capacity bound. -/
def cacheWF (c : Cache) : Prop :=
  c.length ≤ cacheCapacity ∧
  ∀ kv ∈ c, kv.2.result.loading = false ∧ kv.2.result.error = none

/-- The store invariant: a loading result carries no error, and the cache
is well formed. -/
def StoreInv (s : StoreState) : Prop :=
  (s.searchResults.loading = true → s.searchResults.error = none) ∧
  cacheWF s.searchCache

/-! ### Concrete parameter sets, traces and oracles used by the examples -/

def w1_pA : SearchParams := { defaultParams with query := "sushi" }

def w1_pB : SearchParams := { defaultParams with query := "pizza" }

/-- A first search for `w1_pA` has been issued (controller 0). -/
def w1_s1 : StoreState := (executeSearchStart initialState w1_pA 0).1

/-- A second search for `w1_pB` has been issued (controller 1), aborting
controller 0. -/
def w1_s2 : StoreState := (executeSearchStart w1_s1 w1_pB 1).1

def c1_pA : SearchParams := { defaultParams with query := "thai" }

def c1_pB : SearchParams := { defaultParams with query := "vegan" }

/-- Search B issued (controller 0). -/
def c1_s1 : StoreState := (executeSearchStart initialState c1_pB 0).1

/-- Search B completed successfully with restaurant 1; the result was
cached at time 0. -/
def c1_s2 : StoreState := executeSearchSuccess c1_s1 ⟨0, c1_pB⟩ ⟨[1], 1⟩ 0

/-- Search A issued (controller 1), in flight. -/
def c1_s3 : StoreState := (executeSearchStart c1_s2 c1_pA 1).1

/-- Search B issued again while A is in flight: it is served from the
cache and returns without aborting controller 1. -/
def c1_s4 : StoreState := (executeSearchStart c1_s3 c1_pB 2).1

def c3_p : SearchParams := { defaultParams with query := "ramen" }

/-- Search for `c3_p` issued (controller 0). -/
def c3_s1 : StoreState := (executeSearchStart initialState c3_p 0).1

/-- It completed successfully with restaurant 5 and was cached at time 0. -/
def c3_s2 : StoreState := executeSearchSuccess c3_s1 ⟨0, c3_p⟩ ⟨[5], 1⟩ 0

/-- An empty-filter `executeSearch` call cleared the result but left the
duplicate-search guard pointing at `c3_p`'s key. -/
def c3_s3 : StoreState := (executeSearchStart c3_s2 defaultParams 1).1

def w3_p : SearchParams := { defaultParams with query := "tapas" }

def w3_e : CacheEntry := ⟨⟨false, none, [3], 1⟩, 0⟩

def w3_st : StoreState :=
  { initialState with searchCache := [(getCacheKey w3_p, w3_e)] }

def w5_r : SearchResult := ⟨false, none, [1], 1⟩

def w6_r : SearchResult := ⟨false, some "boom", [], 0⟩

/-- Oracle whose first attempt is a 4xx response whose status text
contains the substring "fetch". -/
def c7_f : Nat → FetchAttempt
  | 0 => ⟨.httpError 400 "fetch blocked", false⟩
  | _ + 1 => ⟨.success, false⟩

/-- Oracle whose first attempt is a plain 404. -/
def w7_f : Nat → FetchAttempt := fun _ => ⟨.httpError 404 "Not Found", false⟩

def w8_st : StoreState :=
  { initialState with
      abortControllerRef := some 7,
      searchCache := List.replicate 51 (defaultParams, ⟨emptyResult, 0⟩) }

def c8_st : StoreState :=
  { initialState with
      searchCache := List.replicate 51 (defaultParams, ⟨emptyResult, 0⟩) }

def w9_p : SearchParams := { defaultParams with query := "bistro" }

def c9_p1 : SearchParams := { defaultParams with query := "curry" }

def c9_p2 : SearchParams := { defaultParams with query := "pho" }

/-- Search for `c9_p1` issued (controller 0). -/
def c9_s1 : StoreState := (executeSearchStart initialState c9_p1 0).1

/-- It completed successfully with restaurant 4. -/
def c9_s2 : StoreState := executeSearchSuccess c9_s1 ⟨0, c9_p1⟩ ⟨[4], 1⟩ 0

/-- A search for `c9_p2` was then issued: the loading write spreads the
previous results, so the items of the previous search stay in state. -/
def c9_s3 : StoreState := (executeSearchStart c9_s2 c9_p2 1).1

def w10_p : SearchParams := { defaultParams with query := "diner" }

def w10_st : StoreState :=
  { initialState with lastSearchParams := some (getCacheKey w10_p) }

def c10_p : SearchParams := { defaultParams with query := "kebab" }

def c10_q : SearchParams := { defaultParams with query := "falafel" }

/-- `executeSearch(c10_p)` ran (controller 0). -/
def c10_s1 : StoreState := (executeSearchStart initialState c10_p 0).1

/-- An intervening `executeSearch(c10_q)` ran (controller 1); no
`clearSearch` in between. -/
def c10_s2 : StoreState := (executeSearchStart c10_s1 c10_q 1).1

/-! ### Branch characterizations of `executeSearchStart` -/

theorem execStart_no_params (st : StoreState) (p : SearchParams) (now : Nat)
    (h : hasSearchParams p = false) :
    executeSearchStart st p now = ({ st with searchResults := emptyResult }, none) := by
  unfold executeSearchStart
  rw [if_pos h]

theorem execStart_duplicate (st : StoreState) (p : SearchParams) (now : Nat)
    (h1 : hasSearchParams p = true)
    (h2 : st.lastSearchParams = some (getCacheKey p)) :
    executeSearchStart st p now = (st, none) := by
  unfold executeSearchStart
  rw [if_neg (by simp [h1]), if_pos h2]

theorem execStart_cache_hit (st : StoreState) (p : SearchParams) (now : Nat)
    (e : CacheEntry)
    (h1 : hasSearchParams p = true)
    (h2 : ¬ st.lastSearchParams = some (getCacheKey p))
    (h3 : getCachedResults st.searchCache p now = some e) :
    executeSearchStart st p now =
      ({ st with lastSearchParams := some (getCacheKey p),
                 searchResults := e.result }, none) := by
  unfold executeSearchStart
  rw [if_neg (by simp [h1]), if_neg h2, h3]

theorem execStart_cache_miss (st : StoreState) (p : SearchParams) (now : Nat)
    (h1 : hasSearchParams p = true)
    (h2 : ¬ st.lastSearchParams = some (getCacheKey p))
    (h3 : getCachedResults st.searchCache p now = none) :
    executeSearchStart st p now =
      ({ st with lastSearchParams := some (getCacheKey p),
                 abortedIds := abortCurrent st,
                 abortControllerRef := some st.nextControllerId,
                 nextControllerId := st.nextControllerId + 1,
                 searchResults := loadingResult st.searchResults,
                 pending := st.pending ++ [⟨st.nextControllerId, p⟩] },
       some ⟨st.nextControllerId, p⟩) := by
  unfold executeSearchStart
  rw [if_neg (by simp [h1]), if_neg h2, h3]

/-! ### Lemmas about the cache map -/

theorem mapGet_eq_none (c : Cache) (k : CacheKey) (h : ∀ e ∈ c, e.1 ≠ k) :
    mapGet c k = none := by
  unfold mapGet
  rw [List.find?_eq_none.2]
  · rfl
  · intro x hx
    simp [h x hx]

theorem find?_map_update (k : CacheKey) (v : CacheEntry) :
    ∀ c : Cache, c.any (fun e => decide (e.1 = k)) = true →
      List.find? (fun e => decide (e.1 = k))
        (c.map (fun e => if e.1 = k then (k, v) else e)) = some (k, v)
  | [], h => by simp at h
  | e :: rest, h => by
    rw [List.map_cons]
    by_cases he : e.1 = k
    · rw [if_pos he, List.find?_cons_of_pos _ (by simp)]
    · have hr : rest.any (fun e => decide (e.1 = k)) = true := by
        simpa [List.any_cons, he] using h
      rw [if_neg he, List.find?_cons_of_neg _ (by simpa using he)]
      exact find?_map_update k v rest hr

theorem mapGet_mapSet_self (c : Cache) (k : CacheKey) (v : CacheEntry) :
    mapGet (mapSet c k v) k = some v := by
  unfold mapGet mapSet
  by_cases h : c.any (fun e => decide (e.1 = k)) = true
  · rw [if_pos h, find?_map_update k v c h]; rfl
  · rw [if_neg h, List.find?_append]
    have hnone : List.find? (fun e => decide (e.1 = k)) c = none := by
      rw [List.find?_eq_none]
      intro x hx hk
      exact h (List.any_eq_true.2 ⟨x, hx, hk⟩)
    simp [hnone, List.find?]

theorem mapSet_length_of_mem (c : Cache) (k : CacheKey) (v : CacheEntry)
    (h : c.any (fun e => decide (e.1 = k)) = true) :
    (mapSet c k v).length = c.length := by
  rw [mapSet, if_pos h, List.length_map]

theorem mapSet_length_of_fresh (c : Cache) (k : CacheKey) (v : CacheEntry)
    (h : ¬ c.any (fun e => decide (e.1 = k)) = true) :
    (mapSet c k v).length = c.length + 1 := by
  rw [mapSet, if_neg h, List.length_append, List.length_cons, List.length_nil]

theorem mapSet_length_le (c : Cache) (k : CacheKey) (v : CacheEntry) :
    (mapSet c k v).length ≤ c.length + 1 := by
  by_cases h : c.any (fun e => decide (e.1 = k)) = true
  · rw [mapSet_length_of_mem c k v h]; omega
  · rw [mapSet_length_of_fresh c k v h]

theorem mem_mapSet {c : Cache} {k : CacheKey} {v : CacheEntry}
    {x : CacheKey × CacheEntry} (hx : x ∈ mapSet c k v) : x ∈ c ∨ x = (k, v) := by
  unfold mapSet at hx
  split at hx
  · rcases List.mem_map.1 hx with ⟨a, ha, hax⟩
    by_cases h : a.1 = k
    · right; rw [← hax, if_pos h]
    · left; rwa [← hax, if_neg h]
  · rcases List.mem_append.1 hx with h | h
    · left; exact h
    · right; simpa using h

theorem mapDelete_cons_head (e : CacheKey × CacheEntry) (rest : Cache) :
    mapDelete (e :: rest) e.1 = rest := by
  unfold mapDelete
  exact List.eraseP_cons_of_pos (by simp)

theorem mem_mapDelete {c : Cache} {k : CacheKey}
    {x : CacheKey × CacheEntry} (hx : x ∈ mapDelete c k) : x ∈ c :=
  (List.eraseP_sublist c).subset hx

theorem mapGet_mem {c : Cache} {k : CacheKey} {e : CacheEntry}
    (h : mapGet c k = some e) : ∃ kv ∈ c, kv.2 = e := by
  unfold mapGet at h
  rcases Option.map_eq_some'.1 h with ⟨kv, hfind, hkv⟩
  exact ⟨kv, List.mem_of_find?_eq_some hfind, hkv⟩

/-! ### Lemmas about `setSearchResultsWithCache` -/

theorem setWithCache_searchResults (st : StoreState) (r : SearchResult)
    (p : SearchParams) (now : Nat) :
    (setSearchResultsWithCache st r p now).searchResults = r := rfl

theorem setWithCache_cache_of_not_eligible (st : StoreState) (r : SearchResult)
    (p : SearchParams) (now : Nat) (h : cacheEligible r = false) :
    (setSearchResultsWithCache st r p now).searchCache = st.searchCache := by
  unfold setSearchResultsWithCache
  simp [h]

theorem setWithCache_length_le (st : StoreState) (r : SearchResult)
    (p : SearchParams) (now : Nat)
    (h : st.searchCache.length ≤ cacheCapacity) :
    (setSearchResultsWithCache st r p now).searchCache.length ≤ cacheCapacity := by
  unfold setSearchResultsWithCache
  by_cases helig : cacheEligible r = true
  · simp only [helig, if_true]
    have hle : (mapSet st.searchCache (getCacheKey p) ⟨r, now⟩).length
        ≤ st.searchCache.length + 1 := mapSet_length_le _ _ _
    by_cases hlen : cacheCapacity <
        (mapSet st.searchCache (getCacheKey p) ⟨r, now⟩).length
    · simp only [hlen, if_true]
      cases hc : mapSet st.searchCache (getCacheKey p) ⟨r, now⟩ with
      | nil => rw [hc] at hlen; simp at hlen
      | cons e rest =>
        rw [hc] at hlen hle
        simp only [List.head?, mapDelete_cons_head]
        simp only [List.length_cons] at hlen hle
        omega
    · simp only [hlen, if_false]
      omega
  · simp only [eq_false_of_ne_true helig, if_false]
    exact h

theorem setWithCache_mem {st : StoreState} {r : SearchResult}
    {p : SearchParams} {now : Nat} {x : CacheKey × CacheEntry}
    (hx : x ∈ (setSearchResultsWithCache st r p now).searchCache) :
    x ∈ st.searchCache ∨ x = (getCacheKey p, ⟨r, now⟩) := by
  unfold setSearchResultsWithCache at hx
  by_cases helig : cacheEligible r = true
  · simp only [helig, if_true] at hx
    by_cases hlen : cacheCapacity <
        (mapSet st.searchCache (getCacheKey p) ⟨r, now⟩).length
    · simp only [hlen, if_true] at hx
      cases hc : mapSet st.searchCache (getCacheKey p) ⟨r, now⟩ with
      | nil => rw [hc] at hx; simp at hx
      | cons e rest =>
        rw [hc] at hx
        simp only [List.head?] at hx
        rw [mapDelete_cons_head] at hx
        exact mem_mapSet (hc ▸ List.mem_cons_of_mem e hx)
    · simp only [hlen, if_false] at hx
      exact mem_mapSet hx
  · simp only [eq_false_of_ne_true helig, if_false] at hx
    exact Or.inl hx

/-! ### The store invariant -/

theorem storeInv_init : StoreInv initialState := by
  refine ⟨fun h => rfl, by simp [cacheWF, initialState, cacheCapacity], ?_⟩
  intro kv hkv
  simp [initialState] at hkv

theorem setWithCache_cacheWF {st : StoreState} {r : SearchResult}
    {p : SearchParams} {now : Nat}
    (hwf : cacheWF st.searchCache)
    (hload : r.loading = false) (herr : r.error = none) :
    cacheWF (setSearchResultsWithCache st r p now).searchCache := by
  constructor
  · exact setWithCache_length_le st r p now hwf.1
  · intro kv hkv
    rcases setWithCache_mem hkv with h | h
    · exact hwf.2 kv h
    · rw [h]
      exact ⟨hload, herr⟩

/-- A fresh cache hit yields an entry of the cache. -/
theorem getCachedResults_mem {c : Cache} {p : SearchParams} {now : Nat}
    {e : CacheEntry} (h : getCachedResults c p now = some e) :
    ∃ kv ∈ c, kv.2 = e := by
  unfold getCachedResults at h
  cases hg : mapGet c (getCacheKey p) with
  | none => rw [hg] at h; exact absurd h (by simp)
  | some e2 =>
    rw [hg] at h
    dsimp only at h
    by_cases ht : now - e2.cachedAt < cacheTTL
    · rw [if_pos ht] at h
      injection h with h
      exact h ▸ mapGet_mem hg
    · rw [if_neg ht] at h
      exact absurd h (by simp)

theorem storeInv_execStart (s : StoreState) (p : SearchParams) (now : Nat)
    (h : StoreInv s) : StoreInv (executeSearchStart s p now).1 := by
  by_cases h1 : hasSearchParams p = false
  · rw [execStart_no_params s p now h1]
    exact ⟨fun hl => by simp [emptyResult] at hl, h.2⟩
  · replace h1 : hasSearchParams p = true := by
      cases hv : hasSearchParams p
      · exact absurd hv h1
      · rfl
    by_cases h2 : s.lastSearchParams = some (getCacheKey p)
    · rw [execStart_duplicate s p now h1 h2]
      exact h
    · cases hc : getCachedResults s.searchCache p now with
      | some cached =>
        rw [execStart_cache_hit s p now cached h1 h2 hc]
        refine ⟨?_, h.2⟩
        intro hl
        rcases getCachedResults_mem hc with ⟨kv, hkv, hkve⟩
        have hwf := (h.2.2 kv hkv).1
        rw [hkve] at hwf
        simp only at hl
        rw [hwf] at hl
        exact absurd hl (by simp)
      | none =>
        rw [execStart_cache_miss s p now h1 h2 hc]
        exact ⟨fun _ => rfl, h.2⟩

theorem storeInv_success (s : StoreState) (pend : PendingReq)
    (resp : SearchResponse) (now : Nat) (h : StoreInv s) :
    StoreInv (executeSearchSuccess s pend resp now) := by
  unfold executeSearchSuccess
  by_cases ha : pend.controllerId ∈ s.abortedIds
  · rwa [if_pos ha]
  · rw [if_neg ha]
    exact ⟨fun hl => rfl, setWithCache_cacheWF h.2 rfl rfl⟩

theorem storeInv_failure (s : StoreState) (pend : PendingReq)
    (h : StoreInv s) : StoreInv (executeSearchFailure s pend) := by
  unfold executeSearchFailure
  by_cases ha : pend.controllerId ∈ s.abortedIds
  · rwa [if_pos ha]
  · rw [if_neg ha]
    exact ⟨fun hl => by simp at hl, h.2⟩

theorem storeInv_clear (s : StoreState) (h : StoreInv s) :
    StoreInv (clearSearch s) := by
  unfold clearSearch
  refine ⟨fun hl => rfl, ?_⟩
  by_cases hc : clearThreshold < s.searchCache.length
  · simp only [hc, if_true]
    exact ⟨by simp [cacheCapacity], by simp⟩
  · simp only [hc, if_false]
    exact h.2

theorem storeInv_step {s t : StoreState} (hst : Step s t) (h : StoreInv s) :
    StoreInv t := by
  cases hst with
  | exec p now => exact storeInv_execStart s p now h
  | complete_ok pend resp now _ => exact storeInv_success s pend resp now h
  | complete_err pend _ => exact storeInv_failure s pend h
  | clear => exact storeInv_clear s h
  | update f => exact h
  | auto b => exact h

theorem reachable_inv {s : StoreState} (h : Reachable s) : StoreInv s := by
  induction h with
  | init => exact storeInv_init
  | step _ hstep ih => exact storeInv_step hstep ih

/-! ### Abort monotonicity -/

theorem abortCurrent_subset (s : StoreState) :
    s.abortedIds ⊆ abortCurrent s := by
  unfold abortCurrent
  cases s.abortControllerRef with
  | some c => exact fun a ha => List.mem_cons_of_mem c ha
  | none => exact fun a ha => ha

theorem execStart_aborted_subset (s : StoreState) (p : SearchParams) (now : Nat) :
    s.abortedIds ⊆ ((executeSearchStart s p now).1).abortedIds := by
  by_cases h1 : hasSearchParams p = false
  · rw [execStart_no_params s p now h1]
    exact fun a ha => ha
  · replace h1 : hasSearchParams p = true := by
      cases hv : hasSearchParams p
      · exact absurd hv h1
      · rfl
    by_cases h2 : s.lastSearchParams = some (getCacheKey p)
    · rw [execStart_duplicate s p now h1 h2]
      exact fun a ha => ha
    · cases hc : getCachedResults s.searchCache p now with
      | some cached =>
        rw [execStart_cache_hit s p now cached h1 h2 hc]
        exact fun a ha => ha
      | none =>
        rw [execStart_cache_miss s p now h1 h2 hc]
        exact abortCurrent_subset s

theorem step_aborted_subset {s t : StoreState} (hst : Step s t) :
    s.abortedIds ⊆ t.abortedIds := by
  cases hst with
  | exec p now => exact execStart_aborted_subset s p now
  | complete_ok pend resp now _ =>
    unfold executeSearchSuccess
    by_cases ha : pend.controllerId ∈ s.abortedIds
    · rw [if_pos ha]; exact fun a h => h
    · rw [if_neg ha]; exact fun a h => h
  | complete_err pend _ =>
    unfold executeSearchFailure
    by_cases ha : pend.controllerId ∈ s.abortedIds
    · rw [if_pos ha]; exact fun a h => h
    · rw [if_neg ha]; exact fun a h => h
  | clear => exact abortCurrent_subset s
  | update f => exact fun a h => h
  | auto b => exact fun a h => h

theorem rtg_aborted_subset {s t : StoreState}
    (h : Relation.ReflTransGen Step s t) : s.abortedIds ⊆ t.abortedIds := by
  induction h with
  | refl => exact fun a h => h
  | tail _ hstep ih => exact fun a ha => step_aborted_subset hstep (ih ha)

/-- When `executeSearchStart` actually issues a request, it has aborted the
previously current controller. -/
theorem execStart_issued_aborts_current (s s2 : StoreState) (p : SearchParams)
    (now : Nat) (pend : PendingReq) (c : Nat)
    (hc : s.abortControllerRef = some c)
    (h : executeSearchStart s p now = (s2, some pend)) :
    c ∈ s2.abortedIds := by
  by_cases h1 : hasSearchParams p = false
  · rw [execStart_no_params s p now h1] at h
    exact absurd (congrArg Prod.snd h) (by simp)
  · replace h1 : hasSearchParams p = true := by
      cases hv : hasSearchParams p
      · exact absurd hv h1
      · rfl
    by_cases h2 : s.lastSearchParams = some (getCacheKey p)
    · rw [execStart_duplicate s p now h1 h2] at h
      exact absurd (congrArg Prod.snd h) (by simp)
    · cases hcache : getCachedResults s.searchCache p now with
      | some cached =>
        rw [execStart_cache_hit s p now cached h1 h2 hcache] at h
        exact absurd (congrArg Prod.snd h) (by simp)
      | none =>
        rw [execStart_cache_miss s p now h1 h2 hcache] at h
        have hs2 := congrArg Prod.fst h
        simp only at hs2
        rw [← hs2]
        show c ∈ abortCurrent s
        rw [abortCurrent, hc]
        exact List.mem_cons_self c s.abortedIds

/-- A completion whose controller has been aborted changes nothing. -/
theorem success_noop_of_aborted (s : StoreState) (pend : PendingReq)
    (resp : SearchResponse) (now : Nat)
    (h : pend.controllerId ∈ s.abortedIds) :
    executeSearchSuccess s pend resp now = s := by
  unfold executeSearchSuccess
  rw [if_pos h]

theorem failure_noop_of_aborted (s : StoreState) (pend : PendingReq)
    (h : pend.controllerId ∈ s.abortedIds) :
    executeSearchFailure s pend = s := by
  unfold executeSearchFailure
  rw [if_pos h]

/-! ### More cache lemmas -/

theorem not_key_of_mapGet_eq_none {c : Cache} {k : CacheKey}
    (h : mapGet c k = none) : ∀ e ∈ c, e.1 ≠ k := by
  intro e he hk
  unfold mapGet at h
  rw [Option.map_eq_none'] at h
  exact absurd (List.find?_eq_none.1 h e he) (by simp [hk])

theorem getCachedResults_eq_some {c : Cache} {p : SearchParams} {now : Nat}
    {e : CacheEntry} (hget : mapGet c (getCacheKey p) = some e)
    (hfresh : now - e.cachedAt < cacheTTL) :
    getCachedResults c p now = some e := by
  unfold getCachedResults
  rw [hget]
  dsimp only
  rw [if_pos hfresh]

theorem setWithCache_cache_no_evict (st : StoreState) (r : SearchResult)
    (p : SearchParams) (now : Nat)
    (helig : cacheEligible r = true)
    (hsmall : ¬ cacheCapacity <
      (mapSet st.searchCache (getCacheKey p) ⟨r, now⟩).length) :
    (setSearchResultsWithCache st r p now).searchCache =
      mapSet st.searchCache (getCacheKey p) ⟨r, now⟩ := by
  unfold setSearchResultsWithCache
  simp only [helig, if_true, hsmall, if_false]

theorem setWithCache_cache_evict (st : StoreState) (r : SearchResult)
    (p : SearchParams) (now : Nat) (e : CacheKey × CacheEntry) (rest : Cache)
    (helig : cacheEligible r = true)
    (hshape : mapSet st.searchCache (getCacheKey p) ⟨r, now⟩ = e :: rest)
    (hbig : cacheCapacity < (e :: rest).length) :
    (setSearchResultsWithCache st r p now).searchCache = rest := by
  unfold setSearchResultsWithCache
  simp only [helig, if_true, hshape, hbig, List.head?]
  exact mapDelete_cons_head e rest

/-! ### Bounds for `enhancedFetchFrom` -/

theorem enhancedFetchFrom_bound (f : Nat → FetchAttempt) :
    ∀ r i, (enhancedFetchFrom f r i).retriesUsed ≤ r ∧
      (enhancedFetchFrom f r i).delays =
        List.replicate (enhancedFetchFrom f r i).retriesUsed retryDelayMs
  | 0, i => by
    unfold enhancedFetchFrom
    cases (f i).outcome <;> simp
  | r + 1, i => by
    unfold enhancedFetchFrom
    cases ho : (f i).outcome with
    | success => simp
    | abortError => simp
    | httpError s t =>
      dsimp only
      by_cases hcond : (f i).callerAborted = false ∧
          jsIncludes (httpErrorMessage s t) "fetch" = true
      · rw [if_pos hcond]
        have ih := enhancedFetchFrom_bound f r (i + 1)
        dsimp only
        refine ⟨by omega, ?_⟩
        rw [List.replicate_succ, ih.2]
      · rw [if_neg hcond]
        simp
    | netError m =>
      dsimp only
      by_cases hcond : (f i).callerAborted = false ∧ jsIncludes m "fetch" = true
      · rw [if_pos hcond]
        have ih := enhancedFetchFrom_bound f r (i + 1)
        dsimp only
        refine ⟨by omega, ?_⟩
        rw [List.replicate_succ, ih.2]
      · rw [if_neg hcond]
        simp

theorem enhancedFetchFrom_no_retry_of_aborted (f : Nat → FetchAttempt)
    (r i : Nat) (h : (f i).callerAborted = true) :
    (enhancedFetchFrom f r i).retriesUsed = 0 := by
  cases r with
  | zero =>
    unfold enhancedFetchFrom
    cases (f i).outcome <;> rfl
  | succ r =>
    unfold enhancedFetchFrom
    cases (f i).outcome with
    | success => rfl
    | abortError => rfl
    | httpError s t =>
      dsimp only
      rw [if_neg (by simp [h])]
    | netError m =>
      dsimp only
      rw [if_neg (by simp [h])]

theorem enhancedFetchFrom_no_retry_of_no_fetch_http (f : Nat → FetchAttempt)
    (r i : Nat) (s : Nat) (t : String)
    (ho : (f i).outcome = FetchOutcome.httpError s t)
    (hmsg : jsIncludes (httpErrorMessage s t) "fetch" = false) :
    (enhancedFetchFrom f r i).retriesUsed = 0 := by
  cases r with
  | zero =>
    unfold enhancedFetchFrom
    rw [ho]
  | succ r =>
    unfold enhancedFetchFrom
    rw [ho]
    dsimp only
    rw [if_neg (by simp [hmsg])]

/-! ### The claims -/

/-- C1 (amended): last-writer-wins under cancellation holds for searches
that actually issue a request.  If search A's controller is the one
currently held when `executeSearch` with parameters B reaches the network
path (returning an issued request, i.e. B passed the empty-filter guard,
the duplicate guard and the cache lookup), then A's controller is aborted,
and in every state reachable afterwards the completion of A's request —
success or failure — mutates nothing, so A can never overwrite what B
writes.  The claim as frozen also covers calls B that short-circuit
(empty filter, duplicate guard or cache hit); those do not abort A and the
claim fails there, see the counterexample. -/
theorem executeSearch_cancellation_supersede
    (st st2 : StoreState) (cidA : Nat) (B : SearchParams) (now : Nat)
    (pendB : PendingReq)
    (hcur : st.abortControllerRef = some cidA)
    (hB : executeSearchStart st B now = (st2, some pendB)) :
    cidA ∈ st2.abortedIds ∧
    ∀ st3 : StoreState, Relation.ReflTransGen Step st2 st3 →
      ∀ (pA : SearchParams) (resp : SearchResponse) (t : Nat),
        executeSearchSuccess st3 ⟨cidA, pA⟩ resp t = st3 ∧
        executeSearchFailure st3 ⟨cidA, pA⟩ = st3 := by
  have hmem := execStart_issued_aborts_current st st2 B now pendB cidA hcur hB
  refine ⟨hmem, ?_⟩
  intro st3 hrtg pA resp t
  have hmem3 : cidA ∈ st3.abortedIds := rtg_aborted_subset hrtg hmem
  exact ⟨success_noop_of_aborted st3 ⟨cidA, pA⟩ resp t hmem3,
    failure_noop_of_aborted st3 ⟨cidA, pA⟩ hmem3⟩

/-- Witness for C1: a concrete superseded request whose late success and
failure completions both leave the state untouched. -/
theorem executeSearch_cancellation_supersede_witness :
    executeSearchSuccess w1_s2 ⟨0, w1_pA⟩ ⟨[9], 1⟩ 5 = w1_s2 ∧
    executeSearchFailure w1_s2 ⟨0, w1_pA⟩ = w1_s2 :=
  (executeSearch_cancellation_supersede w1_s1 w1_s2 0 w1_pB 1 ⟨1, w1_pB⟩
      (by decide) (by decide)).2
    w1_s2 Relation.ReflTransGen.refl w1_pA ⟨[9], 1⟩ 5

/-- Counterexample to C1 as frozen: search A (`c1_pA`, controller 1) is in
flight when `executeSearch` is called again with B (`c1_pB`); B is served
from the cache (no request issued, controller 1 not aborted) and writes
the cached items `[1]`.  A's response then arrives and its completion
mutates the result state to `[2]`: the final result is the one written by
A, not B. -/
theorem executeSearch_cancellation_cex :
    Reachable c1_s4 ∧
    (executeSearchStart c1_s2 c1_pA 1).2 = some ⟨1, c1_pA⟩ ∧
    (executeSearchStart c1_s3 c1_pB 2).2 = none ∧
    c1_s4.searchResults.data = [1] ∧
    (executeSearchSuccess c1_s4 ⟨1, c1_pA⟩ ⟨[2], 1⟩ 3).searchResults.data = [2] := by
  refine ⟨?_, by decide, by decide, by decide, by decide⟩
  exact Reachable.step
    (Reachable.step
      (Reachable.step
        (Reachable.step Reachable.init (Step.exec c1_pB 0))
        (Step.complete_ok ⟨0, c1_pB⟩ ⟨[1], 1⟩ 0 (by decide)))
      (Step.exec c1_pA 1))
    (Step.exec c1_pB 2)

/-- C2: when the query is empty or whitespace, the latitude/longitude pair
is not fully set, the dietary-restriction set is empty and both
`min_rating` and `max_price` are null — whatever `max_distance` is —
`executeSearch` writes the empty/not-searched result and returns without
issuing a network call (the returned request is `none`). -/
theorem executeSearch_empty_filter_guard (st : StoreState) (p : SearchParams)
    (now : Nat)
    (hq : jsTrim p.query = "")
    (hloc : p.latitude = none ∨ p.longitude = none)
    (hd : p.dietary_restrictions = [])
    (hr : p.min_rating = none)
    (hp : p.max_price = none) :
    executeSearchStart st p now =
      ({ st with searchResults := emptyResult }, none) := by
  apply execStart_no_params
  unfold hasSearchParams
  rw [hq, hd, hr, hp]
  rcases hloc with h | h <;> simp [h]

/-- Witness for C2 at a concrete parameter set (whitespace query, one
coordinate set, nonzero `max_distance`). -/
theorem executeSearch_empty_filter_guard_witness :
    executeSearchStart initialState
        { defaultParams with query := "  ", latitude := some 1 } 0 =
      ({ initialState with searchResults := emptyResult }, none) :=
  executeSearch_empty_filter_guard initialState
    { defaultParams with query := "  ", latitude := some 1 } 0
    (by decide) (Or.inr rfl) rfl rfl rfl

/-- C3 (amended): provided additionally that the duplicate-search guard
does not fire — the stored last-search key differs from this parameter
set's cache key — an `executeSearch` whose parameters have a meaningful
filter and hit a cache entry younger than 5 minutes sets the result to the
cached snapshot and returns without issuing a network call.  Without that
proviso the claim fails, see the counterexample. -/
theorem executeSearch_cache_hit (st : StoreState) (p : SearchParams)
    (now : Nat) (e : CacheEntry)
    (hmean : hasSearchParams p = true)
    (hdup : ¬ st.lastSearchParams = some (getCacheKey p))
    (hget : mapGet st.searchCache (getCacheKey p) = some e)
    (hfresh : now - e.cachedAt < cacheTTL) :
    executeSearchStart st p now =
      ({ st with lastSearchParams := some (getCacheKey p),
                 searchResults := e.result }, none) :=
  execStart_cache_hit st p now e hmean hdup (getCachedResults_eq_some hget hfresh)

/-- Witness for C3 at a concrete store whose cache holds a fresh non-empty
snapshot for `w3_p`. -/
theorem executeSearch_cache_hit_witness :
    executeSearchStart w3_st w3_p 1 =
      ({ w3_st with lastSearchParams := some (getCacheKey w3_p),
                    searchResults := w3_e.result }, none) :=
  executeSearch_cache_hit w3_st w3_p 1 w3_e (by decide) (by decide) (by decide)
    (by decide)

/-- Counterexample to C3 as frozen: `c3_p` produced a successful non-empty
result cached at time 0; at time 2 (well within the TTL) a repeated
`executeSearch(c3_p)` hits the duplicate-search guard — an intervening
empty-filter call cleared the result but left the guard pointing at
`c3_p`'s key — and returns leaving the empty result in place instead of
setting the cached snapshot (whose items are `[5]`). -/
theorem executeSearch_cache_hit_cex :
    Reachable c3_s3 ∧
    mapGet c3_s3.searchCache (getCacheKey c3_p) = some ⟨⟨false, none, [5], 1⟩, 0⟩ ∧
    2 - (0 : Nat) < cacheTTL ∧
    executeSearchStart c3_s3 c3_p 2 = (c3_s3, none) ∧
    c3_s3.searchResults = emptyResult := by
  refine ⟨?_, by decide, by decide, by decide, by decide⟩
  exact Reachable.step
    (Reachable.step
      (Reachable.step Reachable.init (Step.exec c3_p 0))
      (Step.complete_ok ⟨0, c3_p⟩ ⟨[5], 1⟩ 0 (by decide)))
    (Step.exec defaultParams 1)

/-- C4: in every reachable store state, after any cache-populating
operation the cache holds at most 100 entries; and an insertion that would
exceed the bound — a cache-eligible result under a key not yet present
while the cache is exactly at capacity — evicts exactly the
oldest-inserted (first) entry and no other: the new cache is the old
cache's tail with the new entry appended. -/
theorem cache_capacity_and_eviction (st : StoreState) (results : SearchResult)
    (p : SearchParams) (now : Nat) (hreach : Reachable st) :
    (setSearchResultsWithCache st results p now).searchCache.length ≤ cacheCapacity ∧
    (st.searchCache.length = cacheCapacity →
     cacheEligible results = true →
     mapGet st.searchCache (getCacheKey p) = none →
     (setSearchResultsWithCache st results p now).searchCache =
       st.searchCache.tail ++ [(getCacheKey p, ⟨results, now⟩)]) := by
  have hlen : st.searchCache.length ≤ cacheCapacity :=
    (reachable_inv hreach).2.1
  refine ⟨setWithCache_length_le st results p now hlen, ?_⟩
  intro hcap helig hfresh
  have hany : st.searchCache.any (fun e => decide (e.1 = getCacheKey p)) = false := by
    cases hv : st.searchCache.any (fun e => decide (e.1 = getCacheKey p))
    · rfl
    · rcases List.any_eq_true.1 hv with ⟨x, hx, hxk⟩
      exact absurd (of_decide_eq_true hxk) (not_key_of_mapGet_eq_none hfresh x hx)
  have hshape : mapSet st.searchCache (getCacheKey p) ⟨results, now⟩ =
      st.searchCache ++ [(getCacheKey p, ⟨results, now⟩)] := by
    rw [mapSet, if_neg (by simp [hany])]
  cases hc : st.searchCache with
  | nil => rw [hc] at hcap; exact absurd hcap (by simp [cacheCapacity])
  | cons e rest =>
    have hshape2 : mapSet st.searchCache (getCacheKey p) ⟨results, now⟩ =
        e :: (rest ++ [(getCacheKey p, ⟨results, now⟩)]) := by
      rw [hshape, hc]; rfl
    have hbig : cacheCapacity <
        (e :: (rest ++ [(getCacheKey p, ⟨results, now⟩)])).length := by
      have : st.searchCache.length = rest.length + 1 := by rw [hc]; rfl
      simp only [List.length_cons, List.length_append, List.length_cons,
        List.length_nil]
      omega
    rw [setWithCache_cache_evict st results p now e
      (rest ++ [(getCacheKey p, ⟨results, now⟩)]) helig hshape2 hbig]
    rfl

/-- Witness for C4 at the (reachable) initial store. -/
theorem cache_capacity_and_eviction_witness :
    (setSearchResultsWithCache initialState w5_r defaultParams 0).searchCache.length
      ≤ cacheCapacity :=
  (cache_capacity_and_eviction initialState w5_r defaultParams 0 Reachable.init).1

/-- C5: `setSearchResultsWithCache` creates a cache entry exactly when the
completed result has no error (JavaScript-falsy, i.e. null or empty), is
not loading and has at least one item; error results and empty results
leave the cache untouched. -/
theorem cache_write_precondition (st : StoreState) (results : SearchResult)
    (p : SearchParams) (now : Nat)
    (hlen : st.searchCache.length ≤ cacheCapacity) :
    (cacheEligible results = true →
      mapGet (setSearchResultsWithCache st results p now).searchCache
        (getCacheKey p) = some ⟨results, now⟩) ∧
    (cacheEligible results = false →
      (setSearchResultsWithCache st results p now).searchCache = st.searchCache) := by
  constructor
  · intro helig
    by_cases hsmall : cacheCapacity <
        (mapSet st.searchCache (getCacheKey p) ⟨results, now⟩).length
    · have hany : st.searchCache.any (fun e => decide (e.1 = getCacheKey p)) = false := by
        cases hv : st.searchCache.any (fun e => decide (e.1 = getCacheKey p))
        · rfl
        · rw [mapSet_length_of_mem st.searchCache (getCacheKey p) ⟨results, now⟩ hv]
            at hsmall
          omega
      have hnotkey : ∀ e ∈ st.searchCache, ¬ e.1 = getCacheKey p := by
        intro e he hk
        have : st.searchCache.any (fun e => decide (e.1 = getCacheKey p)) = true :=
          List.any_eq_true.2 ⟨e, he, by simp [hk]⟩
        rw [this] at hany
        exact absurd hany (by simp)
      have hshape : mapSet st.searchCache (getCacheKey p) ⟨results, now⟩ =
          st.searchCache ++ [(getCacheKey p, ⟨results, now⟩)] := by
        rw [mapSet, if_neg (by simp [hany])]
      cases hc : st.searchCache with
      | nil =>
        rw [hc] at hshape hsmall
        rw [hshape] at hsmall
        simp [cacheCapacity] at hsmall
      | cons e rest =>
        have hshape2 : mapSet st.searchCache (getCacheKey p) ⟨results, now⟩ =
            e :: (rest ++ [(getCacheKey p, ⟨results, now⟩)]) := by
          rw [hshape, hc]; rfl
        rw [setWithCache_cache_evict st results p now e
          (rest ++ [(getCacheKey p, ⟨results, now⟩)]) helig hshape2
          (hshape2 ▸ hsmall)]
        unfold mapGet
        rw [List.find?_append]
        have hrest : List.find? (fun x => decide (x.1 = getCacheKey p)) rest = none := by
          rw [List.find?_eq_none]
          intro x hx
          simp only [decide_eq_true_eq]
          exact hnotkey x (by rw [hc]; exact List.mem_cons_of_mem e hx)
        rw [hrest]
        simp [List.find?]
    · rw [setWithCache_cache_no_evict st results p now helig hsmall]
      exact mapGet_mapSet_self st.searchCache (getCacheKey p) ⟨results, now⟩
  · intro helig
    exact setWithCache_cache_of_not_eligible st results p now helig

/-- Witness for C5: a successful one-item result is cached; an error
result is not. -/
theorem cache_write_precondition_witness :
    mapGet (setSearchResultsWithCache initialState w5_r w3_p 0).searchCache
        (getCacheKey w3_p) = some ⟨w5_r, 0⟩ ∧
    (setSearchResultsWithCache initialState w6_r w3_p 0).searchCache
      = initialState.searchCache :=
  ⟨(cache_write_precondition initialState w5_r w3_p 0 (by decide)).1 (by decide),
   (cache_write_precondition initialState w6_r w3_p 0 (by decide)).2 (by decide)⟩

/-- C6: when a request fails and has not been superseded (its controller
is not aborted), the store writes a result with `loading = false` and the
non-null user-facing error string, and the catch handler completes as a
total function — nothing is thrown past the store boundary.  When the
request was superseded (controller aborted), the failure changes nothing
at all. -/
theorem store_failure_semantics (st : StoreState) (pend : PendingReq) :
    (pend.controllerId ∉ st.abortedIds →
      (executeSearchFailure st pend).searchResults.loading = false ∧
      (executeSearchFailure st pend).searchResults.error = some failureMessage) ∧
    (pend.controllerId ∈ st.abortedIds → executeSearchFailure st pend = st) := by
  constructor
  · intro ha
    unfold executeSearchFailure
    rw [if_neg ha]
    exact ⟨rfl, rfl⟩
  · exact failure_noop_of_aborted st pend

/-- Witness for C6: a failure of a live request at the initial store
writes the error string; at `w1_s2` the superseded controller 0 changes
nothing. -/
theorem store_failure_semantics_witness :
    (executeSearchFailure initialState ⟨0, defaultParams⟩).searchResults.error
        = some failureMessage ∧
    executeSearchFailure w1_s2 ⟨0, w1_pA⟩ = w1_s2 :=
  ⟨((store_failure_semantics initialState ⟨0, defaultParams⟩).1 (by decide)).2,
   (store_failure_semantics w1_s2 ⟨0, w1_pA⟩).2 (by decide)⟩

/-- C7 (amended): for `enhancedFetch`, (a) an attempt observed with the
caller-supplied signal aborted is never retried; (b) at most `retries`
retries happen (default `defaultRetries = 2`), each preceded by a fixed
`retryDelayMs = 1000` ms delay; (c) a 4xx response is not retried
*provided its error message does not contain the substring "fetch"* — the
messages for 404 and 429 never do, but the generic 4xx message embeds the
server's status text, and a status text containing "fetch" defeats the
message-based retry test, see the counterexample. -/
theorem enhancedFetch_retry_policy (f : Nat → FetchAttempt) (retries : Nat) :
    (∀ i r, (f i).callerAborted = true →
      (enhancedFetchFrom f r i).retriesUsed = 0) ∧
    ((enhancedFetch f retries).retriesUsed ≤ retries ∧
      (enhancedFetch f retries).delays =
        List.replicate (enhancedFetch f retries).retriesUsed retryDelayMs ∧
      retryDelayMs = 1000 ∧ defaultRetries = 2) ∧
    (∀ s t, (f 0).outcome = FetchOutcome.httpError s t → 400 ≤ s → s < 500 →
      jsIncludes (httpErrorMessage s t) "fetch" = false →
      (enhancedFetch f retries).retriesUsed = 0) := by
  refine ⟨fun i r h => enhancedFetchFrom_no_retry_of_aborted f r i h,
    ⟨(enhancedFetchFrom_bound f retries 0).1,
     (enhancedFetchFrom_bound f retries 0).2, rfl, rfl⟩,
    fun s t ho _ _ hmsg =>
      enhancedFetchFrom_no_retry_of_no_fetch_http f retries 0 s t ho hmsg⟩

/-- Witness for C7: with a plain 404 first attempt and the default retry
budget, no retry happens and no delay is slept. -/
theorem enhancedFetch_retry_policy_witness :
    (enhancedFetch w7_f defaultRetries).retriesUsed = 0 ∧
    (enhancedFetch w7_f defaultRetries).delays = [] :=
  ⟨(enhancedFetch_retry_policy w7_f defaultRetries).2.2 404 "Not Found" rfl
      (by decide) (by decide) (by decide),
   by decide⟩

/-- Counterexample to C7 as frozen: the first attempt is a 4xx response
(status 400, status text "fetch blocked", caller signal not aborted), yet
the wrapper retries once — the retry test is a substring test on the error
message, and the generic 4xx message embeds the status text. -/
theorem enhancedFetch_4xx_retry_cex :
    c7_f 0 = ⟨FetchOutcome.httpError 400 "fetch blocked", false⟩ ∧
    (enhancedFetch c7_f defaultRetries).retriesUsed = 1 := by
  exact ⟨rfl, by decide⟩

/-- C8 (amended): `clearSearch` resets the parameters and the result to
their defaults, clears the duplicate-search guard, disables auto-search,
aborts any in-flight request, and flushes the cache exactly when its size
exceeds `clearThreshold = 50` — a threshold *lower* than the primary
100-entry capacity bound, not higher as the frozen claim states (see the
counterexample). -/
theorem clearSearch_reset_and_flush (st : StoreState) :
    (clearSearch st).searchParams = defaultParams ∧
    (clearSearch st).searchResults = emptyResult ∧
    (clearSearch st).lastSearchParams = none ∧
    (clearSearch st).autoSearchEnabled = false ∧
    (∀ c, st.abortControllerRef = some c → c ∈ (clearSearch st).abortedIds) ∧
    (clearSearch st).searchCache =
      (if clearThreshold < st.searchCache.length then [] else st.searchCache) ∧
    clearThreshold = 50 ∧ clearThreshold < cacheCapacity := by
  refine ⟨rfl, rfl, rfl, rfl, ?_, rfl, rfl, by decide⟩
  intro c hc
  show c ∈ abortCurrent st
  rw [abortCurrent, hc]
  exact List.mem_cons_self c st.abortedIds

/-- Witness for C8: on a store with 51 cache entries and controller 7 in
flight, `clearSearch` flushes the cache and aborts controller 7. -/
theorem clearSearch_reset_and_flush_witness :
    (clearSearch w8_st).searchCache = [] ∧ 7 ∈ (clearSearch w8_st).abortedIds := by
  refine ⟨?_, (clearSearch_reset_and_flush w8_st).2.2.2.2.1 7 rfl⟩
  rw [(clearSearch_reset_and_flush w8_st).2.2.2.2.2.1]
  decide

/-- Counterexample to C8 as frozen: there is no flush threshold higher
than the 100-entry capacity bound governing `clearSearch` — a store with a
51-entry cache (well under 100) already gets flushed. -/
theorem clearSearch_flush_threshold_cex :
    ¬ ∃ T : Nat, cacheCapacity < T ∧ ∀ st : StoreState,
        (clearSearch st).searchCache =
          (if T < st.searchCache.length then [] else st.searchCache) := by
  rintro ⟨T, hT, h⟩
  have h51 := h c8_st
  have hlen : c8_st.searchCache.length = 51 := by decide
  have hnotlt : ¬ T < c8_st.searchCache.length := by
    rw [hlen]
    simp only [cacheCapacity] at hT
    omega
  rw [if_neg hnotlt] at h51
  have hflush : (clearSearch c8_st).searchCache = [] := by decide
  rw [hflush] at h51
  exact absurd h51.symm (by decide)

/-- C9 (amended): the four display conditions are decided in priority
order by the rendering component (loading, else error, else non-empty,
else empty), and at the state level loading and a set error are mutually
exclusive in every reachable store state.  Full four-way exclusivity fails
as frozen: while a new search is loading, the item list of the previous
search remains in state (the loading write spreads the previous results),
see the counterexample. -/
theorem display_loading_error_exclusive (s : StoreState) (h : Reachable s) :
    s.searchResults.loading = true → s.searchResults.error = none :=
  (reachable_inv h).1

/-- Witness for C9: right after issuing a search from the initial store,
the result is loading and its error is `none`. -/
theorem display_loading_error_exclusive_witness :
    ((executeSearchStart initialState w9_p 0).1).searchResults.error = none :=
  display_loading_error_exclusive (executeSearchStart initialState w9_p 0).1
    (Reachable.step Reachable.init (Step.exec w9_p 0)) (by decide)

/-- Counterexample to C9 as frozen: a reachable state in which
`loading = true` while the item list from the previous search (`[4]`) is
simultaneously non-empty — two of the four display conditions hold at
once, the very situation the claim rules out. -/
theorem display_state_exclusivity_cex :
    Reachable c9_s3 ∧
    c9_s3.searchResults.loading = true ∧
    c9_s3.searchResults.data = [4] := by
  refine ⟨?_, by decide, by decide⟩
  exact Reachable.step
    (Reachable.step
      (Reachable.step Reachable.init (Step.exec c9_p1 0))
      (Step.complete_ok ⟨0, c9_p1⟩ ⟨[4], 1⟩ 0 (by decide)))
    (Step.exec c9_p2 1)

/-- C10 (amended): the duplicate-search guard compares against the *most
recent* guard-passing search: whenever the stored last-search key equals
the cache key of a meaningful parameter set `p`, `executeSearch(p)`
returns before the cache lookup with no network call and no state change —
in particular also when the earlier attempt failed or its cache entry has
passed the 5-minute TTL.  The frozen claim's stronger reading — *every*
subsequent same-key call short-circuits as long as `clearSearch` was not
called — fails, because an intervening search with a different key
repoints the guard, see the counterexample. -/
theorem duplicate_search_guard (st : StoreState) (p : SearchParams) (now : Nat)
    (hmean : hasSearchParams p = true)
    (hlast : st.lastSearchParams = some (getCacheKey p)) :
    executeSearchStart st p now = (st, none) :=
  execStart_duplicate st p now hmean hlast

/-- Witness for C10 at a concrete store whose last-search key is
`w10_p`'s key (note: its cache is empty, so the short-circuit does not
depend on a usable cache entry). -/
theorem duplicate_search_guard_witness :
    executeSearchStart w10_st w10_p 999999999 = (w10_st, none) :=
  duplicate_search_guard w10_st w10_p 999999999 (by decide) (by decide)

/-- Counterexample to C10 as frozen: `executeSearch(c10_p)` ran
(controller 0) and `clearSearch` was never called, yet after an
intervening `executeSearch(c10_q)` a repeated `executeSearch(c10_p)` does
not return before the cache lookup: it issues a network request
(controller 2). -/
theorem duplicate_search_guard_cex :
    Reachable c10_s2 ∧
    hasSearchParams c10_p = true ∧
    (executeSearchStart initialState c10_p 0).2 = some ⟨0, c10_p⟩ ∧
    (executeSearchStart c10_s2 c10_p 2).2 = some ⟨2, c10_p⟩ := by
  refine ⟨?_, by decide, by decide, by decide⟩
  exact Reachable.step
    (Reachable.step Reachable.init (Step.exec c10_p 0))
    (Step.exec c10_q 1)

end FoodFindr
